import Mathlib

/-!
Verification development for the LaMDA-pytorch repository
(`src/lamda_pytorch/lamda_pytorch.py`).

Tensors are modelled as nested lists of real numbers; float arithmetic is
idealised as exact real arithmetic, `exp`, `log` and `sqrt` being the exact
functions the float kernels approximate.  Machine `.long()` casts are modelled
as truncation toward zero on `ℤ`.  Module construction is modelled by
functions taking the (randomly initialised) weight entries as explicit
function parameters, so every statement quantifies over all possible weights.
-/

noncomputable section

/-- Dot product of two real vectors, truncating at the shorter list. -/
def dot (xs ys : List ℝ) : ℝ := (List.zipWith (fun a b => a * b) xs ys).sum

/-- Model of `nn.Linear`: weight rows (one row per output feature), an optional
bias vector, and a tag recording whether `torch.quantization.quantize_dynamic`
has converted the layer.  Numeric semantics are modelled at full precision; the
tag only records which layers the quantization transform touched. -/
structure LinearLayer where
  weight : List (List ℝ)
  bias : Option (List ℝ)
  quantized : Bool

/-- Forward pass of `nn.Linear`. -/
def applyLinear (l : LinearLayer) (x : List ℝ) : List ℝ :=
  match l.bias with
  | none => l.weight.map (fun row => dot row x)
  | some b => List.zipWith (fun row c => dot row x + c) l.weight b

/-- `nn.Linear(inF, outF, bias = False)` with arbitrary initial weights `w`. -/
def mkLinear (inF outF : ℕ) (w : ℕ → ℕ → ℝ) : LinearLayer :=
  ⟨(List.range outF).map (fun o => (List.range inF).map (fun i => w o i)), none, false⟩

/-- `nn.Linear(inF, outF)` (default bias) with arbitrary initial weights. -/
def mkLinearB (inF outF : ℕ) (w : ℕ → ℕ → ℝ) (b : ℕ → ℝ) : LinearLayer :=
  ⟨(List.range outF).map (fun o => (List.range inF).map (fun i => w o i)), some ((List.range outF).map b), false⟩

/-- `nn.Embedding(rows, cols)` weight table with arbitrary initial entries. -/
def mkEmbeddingTable (rows cols : ℕ) (w : ℕ → ℕ → ℝ) : List (List ℝ) :=
  (List.range rows).map (fun r => (List.range cols).map (fun c => w r c))

/-- The `eps` of `nn.LayerNorm` (torch default `1e-5`). -/
def lnEps : ℝ := 1 / 100000

/-- Forward pass of `nn.LayerNorm` over one feature vector: standardise to
zero mean and unit variance (biased variance, torch semantics), then apply the
learned per-feature scale `g` and shift `b`. -/
def layerNorm (g b : List ℝ) (x : List ℝ) : List ℝ :=
  let n : ℝ := x.length
  let mu : ℝ := x.sum / n
  let v : ℝ := (x.map (fun a => (a - mu) ^ 2)).sum / n
  let rs : ℝ := (Real.sqrt (v + lnEps))⁻¹
  List.zipWith (fun a c => a + c) (List.zipWith (fun s a => s * ((a - mu) * rs)) g x) b

/-- `F.relu(x) ** 2`, the `SquaredRelu` activation, elementwise. -/
def squaredRelu (a : ℝ) : ℝ := max a 0 ^ 2

/-- Truncation of a real toward zero, modelling the torch `.long()` cast. -/
def truncToZero (x : ℝ) : ℤ := if 0 ≤ x then ⌊x⌋ else -⌊-x⌋

/-- `T5RelativePositionBias._relative_position_bucket`, translated line by
line: negate and clamp the relative position at zero, map small distances to
themselves, large ones through the logarithmic formula truncated by `.long()`
and clamped at `num_buckets - 1`. -/
def relativePositionBucket (relative_position : ℤ) (num_buckets max_distance : ℕ) : ℤ :=
  let n : ℤ := max (-relative_position) 0
  let max_exact : ℕ := num_buckets / 2
  let val_if_large : ℤ :=
    (max_exact : ℤ) + truncToZero (Real.log ((n : ℝ) / (max_exact : ℝ)) /
      Real.log ((max_distance : ℝ) / (max_exact : ℝ)) * ((num_buckets : ℝ) - (max_exact : ℝ)))
  let clamped : ℤ := min val_if_large ((num_buckets : ℤ) - 1)
  if n < (max_exact : ℤ) then n else clamped

/-- Bucket assignment exactly as the specification words it (section 4.3):
buckets below `num_buckets/2` map a clamped distance `n` to itself; otherwise
the bucket is `num_buckets/2 + floor(log(n/(num_buckets/2)) /
log(max_distance/(num_buckets/2)) * (num_buckets - num_buckets/2))`, clamped
to at most `num_buckets - 1`. -/
def bucketSpec (n : ℕ) (num_buckets max_distance : ℕ) : ℤ :=
  let half : ℕ := num_buckets / 2
  if n < half then (n : ℤ)
  else min ((num_buckets : ℤ) - 1)
    ((half : ℤ) + ⌊Real.log ((n : ℝ) / (half : ℝ)) /
      Real.log ((max_distance : ℝ) / (half : ℝ)) * ((num_buckets : ℝ) - (half : ℝ))⌋)

/-- The query scale `dim_head ** -0.5` of `Attention.__init__`. -/
def attnScale (dim_head : ℕ) : ℝ := (dim_head : ℝ) ^ (-(1 / 2) : ℝ)

/-- The bias scale `dim_head ** 0.5` passed to `T5RelativePositionBias`. -/
def t5Scale (dim_head : ℕ) : ℝ := (dim_head : ℝ) ^ ((1 / 2) : ℝ)

/-- The largest finite `float32`, `(2 - 2⁻²³) * 2¹²⁷ = 2¹²⁸ - 2¹⁰⁴`; the causal
mask fills entries with its negation (`-torch.finfo(sim.dtype).max`). -/
def f32Max : ℝ := 2 ^ (128 : ℕ) - 2 ^ (104 : ℕ)

/-- Row softmax, `sim.softmax(dim = -1)` on one row, in exact arithmetic. -/
def softmaxRow (xs : List ℝ) : List ℝ :=
  xs.map (fun a => Real.exp a / (xs.map Real.exp).sum)

/-- The `T5RelativePositionBias` module: stored scale, bucket hyperparameters
and the `nn.Embedding(num_buckets, heads)` bias table. -/
structure T5Bias where
  scale : ℝ
  num_buckets : ℕ
  max_distance : ℕ
  relative_attention_bias : List (List ℝ)

/-- `T5RelativePositionBias.__init__` (arbitrary initial embedding weights). -/
def T5Bias.init (scale : ℝ) (num_buckets max_distance heads : ℕ) (w : ℕ → ℕ → ℝ) : T5Bias :=
  ⟨scale, num_buckets, max_distance, mkEmbeddingTable num_buckets heads w⟩

/-- The bias value added at head `h`, query position `i`, key position `j`:
bucket the relative position `k_pos - q_pos`, then look up coordinate `h` of
that bucket row of the embedding table. -/
def T5Bias.biasAt (t : T5Bias) (h i j : ℕ) : ℝ :=
  (t.relative_attention_bias.getD
    (relativePositionBucket ((j : ℤ) - (i : ℤ)) t.num_buckets t.max_distance).toNat []).getD h 0

/-- `T5RelativePositionBias.forward`: add `bias * scale` elementwise to the
`(heads, i, j)` similarity tensor (the leading batch axis is handled by the
caller mapping over batch elements). -/
def T5Bias.forward (t : T5Bias) (qk : List (List (List ℝ))) : List (List (List ℝ)) :=
  (List.range qk.length).map (fun h =>
    (List.range (qk.getD h []).length).map (fun i =>
      (List.range ((qk.getD h []).getD i []).length).map (fun j =>
        ((qk.getD h []).getD i []).getD j 0 + t.biasAt h i j * t.scale)))

/-- The `Attention` module state: stored head count, query scale, the three
projections and the owned relative-position-bias module. -/
structure Attention where
  heads : ℕ
  scale : ℝ
  to_q : LinearLayer
  to_kv : LinearLayer
  to_out : LinearLayer
  rel_pos_bias : T5Bias

/-- The weight initialisation data a model construction consumes: one entry
function per randomly initialised parameter tensor of the source modules. -/
structure InitParams where
  wq : ℕ → ℕ → ℝ
  wkv : ℕ → ℕ → ℝ
  wo : ℕ → ℕ → ℝ
  bo : ℕ → ℝ
  wbias : ℕ → ℕ → ℝ
  w1 : ℕ → ℕ → ℝ
  b1 : ℕ → ℝ
  w2 : ℕ → ℕ → ℝ
  b2 : ℕ → ℝ
  wemb : ℕ → ℕ → ℝ
  wl : ℕ → ℕ → ℝ
  bl : ℕ → ℝ

/-- All-zero initialisation data, used for concrete instances. -/
def zeroParams : InitParams :=
  ⟨fun _ _ => 0, fun _ _ => 0, fun _ _ => 0, fun _ => 0, fun _ _ => 0,
   fun _ _ => 0, fun _ => 0, fun _ _ => 0, fun _ => 0, fun _ _ => 0,
   fun _ _ => 0, fun _ => 0⟩

/-- Initialisation data whose first feedforward map has a nonzero second-half
output row and whose second feedforward map reads that second half. -/
def ffParamsUsed : InitParams :=
  ⟨fun _ _ => 0, fun _ _ => 0, fun _ _ => 0, fun _ => 0, fun _ _ => 0,
   fun o _ => (o : ℝ), fun _ => 0, fun _ i => (i : ℝ), fun _ => 0, fun _ _ => 0,
   fun _ _ => 0, fun _ => 0⟩

/-- Like `ffParamsUsed` but with the second-half output row of the first
feedforward map zeroed; the two differ only there. -/
def ffParamsZeroed : InitParams :=
  ⟨fun _ _ => 0, fun _ _ => 0, fun _ _ => 0, fun _ => 0, fun _ _ => 0,
   fun _ _ => 0, fun _ => 0, fun _ i => (i : ℝ), fun _ => 0, fun _ _ => 0,
   fun _ _ => 0, fun _ => 0⟩

/-- `Attention.__init__`: `to_q : dim → heads*dim_head` (no bias),
`to_kv : dim → dim_head*2` (no bias), `to_out : heads*dim_head → dim`, query
scale `dim_head ** -0.5`, and a `T5RelativePositionBias` with default
`num_buckets = 32`, `max_distance = 128` and scale `dim_head ** 0.5`. -/
def Attention.init (dim heads dim_head : ℕ) (p : InitParams) : Attention :=
  ⟨heads, attnScale dim_head,
   mkLinear dim (heads * dim_head) p.wq,
   mkLinear dim (dim_head * 2) p.wkv,
   mkLinearB (heads * dim_head) dim p.wo p.bo,
   T5Bias.init (t5Scale dim_head) 32 128 heads p.wbias⟩

/-- First chunk of `tensor.chunk(2, dim = -1)` (torch gives the first chunk
the ceiling half of the length). -/
def chunkFst (r : List ℝ) : List ℝ := r.take ((r.length + 1) / 2)

/-- Second chunk of `tensor.chunk(2, dim = -1)`. -/
def chunkSnd (r : List ℝ) : List ℝ := r.drop ((r.length + 1) / 2)

/-- The query matrix `self.to_q(x)` for one batch element (rows = positions). -/
def Attention.qmat (A : Attention) (x : List (List ℝ)) : List (List ℝ) :=
  x.map (applyLinear A.to_q)

/-- The key matrix: first chunk of `self.to_kv(x).chunk(2, dim = -1)`. -/
def Attention.kmat (A : Attention) (x : List (List ℝ)) : List (List ℝ) :=
  (x.map (applyLinear A.to_kv)).map chunkFst

/-- The value matrix: second chunk of `self.to_kv(x).chunk(2, dim = -1)`. -/
def Attention.vmat (A : Attention) (x : List (List ℝ)) : List (List ℝ) :=
  (x.map (applyLinear A.to_kv)).map chunkSnd

/-- The per-head width `d` that `rearrange(q, 'b n (h d) -> b h n d', h = h)`
infers from the projected width and the stored head count. -/
def Attention.dimHead (A : Attention) : ℕ := A.to_q.weight.length / A.heads

/-- Head `h` of the query at position `i`: the `h`-th `dimHead`-wide slice of
the projected query row, as produced by the rearrange. -/
def Attention.qHead (A : Attention) (x : List (List ℝ)) (h i : ℕ) : List ℝ :=
  (((A.qmat x).getD i []).drop (h * A.dimHead)).take A.dimHead

/-- `sim = einsum('b h i d, b j d -> b h i j', q * scale, k)` for one batch
element: note the key carries no head axis, so every head consumes the same
key row `j`. -/
def Attention.simRaw (A : Attention) (x : List (List ℝ)) : List (List (List ℝ)) :=
  (List.range A.heads).map (fun h =>
    (List.range x.length).map (fun i =>
      (List.range x.length).map (fun j =>
        dot ((A.qHead x h i).map (fun a => A.scale * a)) ((A.kmat x).getD j []))))

/-- `sim = self.rel_pos_bias(sim)`. -/
def Attention.simBiased (A : Attention) (x : List (List ℝ)) : List (List (List ℝ)) :=
  A.rel_pos_bias.forward (A.simRaw x)

/-- The causal mask and fill: `torch.ones((i, j)).triu(j - i + 1)` marks the
entries with `col - row ≥ j - i + 1`, which `masked_fill` sets to
`-torch.finfo(sim.dtype).max`. -/
def Attention.simMasked (A : Attention) (x : List (List ℝ)) : List (List (List ℝ)) :=
  let s := A.simBiased x
  (List.range s.length).map (fun h =>
    (List.range (s.getD h []).length).map (fun (i : ℕ) =>
      (List.range ((s.getD h []).getD i []).length).map (fun (j : ℕ) =>
        if (((s.getD h []).getD i []).length : ℤ) - ((s.getD h []).length : ℤ) + 1 ≤ (j : ℤ) - (i : ℤ)
        then -f32Max
        else ((s.getD h []).getD i []).getD j 0)))

/-- `attn = sim.softmax(dim = -1)` (the dropout that follows is the identity
at inference and at the constructed dropout probability `0`). -/
def Attention.attnWeights (A : Attention) (x : List (List ℝ)) : List (List (List ℝ)) :=
  (A.simMasked x).map (fun mat => mat.map softmaxRow)

/-- Sum of a list of vectors (empty input gives the empty vector). -/
def vecSum : List (List ℝ) → List ℝ
  | [] => []
  | [v] => v
  | v :: vs => List.zipWith (fun a b => a + b) v (vecSum vs)

/-- `out = einsum('b h i j, b j d -> b h i d', attn, v)` at head `h`, query
position `i`: the attention-weighted sum of the shared value rows. -/
def Attention.outHead (A : Attention) (x : List (List ℝ)) (h i : ℕ) : List ℝ :=
  vecSum (List.zipWith (fun w v => v.map (fun a => w * a))
    (((A.attnWeights x).getD h []).getD i []) (A.vmat x))

/-- `Attention.forward` for one batch element: concatenate the heads back to
`(n, heads*dim_head)` and apply the output projection. -/
def Attention.forward (A : Attention) (x : List (List ℝ)) : List (List ℝ) :=
  (List.range x.length).map (fun i =>
    applyLinear A.to_out (((List.range A.heads).map (fun h => A.outHead x h i)).flatten))

/-- The `FeedForward` module: the two affine maps of its `nn.Sequential`. -/
structure FeedForward where
  lin1 : LinearLayer
  lin2 : LinearLayer

/-- `FeedForward.__init__`: `inner_dim = dim * mult`, first affine map
`dim → inner_dim * 2`, second `inner_dim * 2 → dim`, both with bias. -/
def FeedForward.init (dim mult : ℕ) (p : InitParams) : FeedForward :=
  ⟨mkLinearB dim (dim * mult * 2) p.w1 p.b1, mkLinearB (dim * mult * 2) dim p.w2 p.b2⟩

/-- `FeedForward.forward` on one feature vector: first affine map, elementwise
squared ReLU, (identity) dropout, second affine map. -/
def FeedForward.forward (f : FeedForward) (x : List ℝ) : List ℝ :=
  applyLinear f.lin2 ((applyLinear f.lin1 x).map squaredRelu)

/-- `quantize_dynamic` on a single `nn.Linear` with qconfig `{nn.Linear}`:
the layer is replaced by its dynamically quantized variant (same weights at
the modelled precision, tagged as converted). -/
def LinearLayer.quantize (l : LinearLayer) : LinearLayer := ⟨l.weight, l.bias, true⟩

/-- `quantize_dynamic(attn, {nn.Linear})`: every `nn.Linear` submodule of the
attention module is converted; the embedding table of the bias module is not
an `nn.Linear` and stays untouched. -/
def Attention.quantizeDyn (A : Attention) : Attention :=
  ⟨A.heads, A.scale, A.to_q.quantize, A.to_kv.quantize, A.to_out.quantize, A.rel_pos_bias⟩

/-- `quantize_dynamic(ffn, {nn.Linear})`. -/
def FeedForward.quantizeDyn (f : FeedForward) : FeedForward :=
  ⟨f.lin1.quantize, f.lin2.quantize⟩

/-- The `Transformer` module.  The source builds one `Attention` and one
`FeedForward` and appends the same two instances, wrapped in fresh
`Residual(PreNorm(dim, _))` wrappers, `depth` times; the value-level state is
therefore the shared pair plus the depth and the wrapper dimension (all
`nn.LayerNorm` wrappers carry the identical construction-time parameters,
ones and zeros — object identity is modelled separately at allocation level
below). -/
structure Transformer where
  attn : Attention
  ffn : FeedForward
  depth : ℕ
  dim : ℕ

/-- `Transformer.__init__(dim, depth, heads, dim_head, dropout, quantized)`:
build the single attention and feedforward instances, quantizing both first
when `quantized` is set. -/
def Transformer.init (dim depth heads dim_head : ℕ) (quantized : Bool) (p : InitParams) : Transformer :=
  let attn := Attention.init dim heads dim_head p
  let ffn := FeedForward.init dim 4 p
  ⟨if quantized then attn.quantizeDyn else attn,
   if quantized then ffn.quantizeDyn else ffn, depth, dim⟩

/-- `PreNorm.forward`: apply the owned `nn.LayerNorm(dim)` (construction-time
parameters: weight ones, bias zeros) to each row, then the wrapped function. -/
def preNorm (dim : ℕ) (fn : List (List ℝ) → List (List ℝ)) (x : List (List ℝ)) : List (List ℝ) :=
  fn (x.map (layerNorm (List.replicate dim 1) (List.replicate dim 0)))

/-- `Residual.forward`: `fn(x) + x` elementwise. -/
def residualWrap (fn : List (List ℝ) → List (List ℝ)) (x : List (List ℝ)) : List (List ℝ) :=
  List.zipWith (List.zipWith (fun a b => a + b)) (fn x) x

/-- One layer of `Transformer.forward`: the residual pre-normed attention
block followed by the residual pre-normed feedforward block. -/
def Transformer.block (T : Transformer) (x : List (List ℝ)) : List (List ℝ) :=
  residualWrap (preNorm T.dim (fun y => y.map T.ffn.forward))
    (residualWrap (preNorm T.dim T.attn.forward) x)

/-- `Transformer.forward`: thread the sequence through the `depth` (shared)
layers. -/
def Transformer.forward (T : Transformer) (x : List (List ℝ)) : List (List ℝ) :=
  Nat.iterate T.block T.depth x

/-- The `LaMDA` module: token embedding, transformer, and the
`to_logits = Sequential(LayerNorm(dim), Linear(dim, num_tokens))` head (the
layer norm again carries its construction-time parameters). -/
structure LaMDAModel where
  num_tokens : ℕ
  dim : ℕ
  token_emb : List (List ℝ)
  transformer : Transformer
  to_logits : LinearLayer

/-- `LaMDA.__init__`.  The transformer is constructed by the source as
`Transformer(dim, depth, dim_head, heads, quantized = quantized_transformer)`,
passing `dim_head` in the `heads` position and `heads` in the `dim_head`
position of the `Transformer.__init__` signature. -/
def LaMDAModel.init (num_tokens dim depth dim_head heads : ℕ)
    (quantized_transformer : Bool) (p : InitParams) : LaMDAModel :=
  ⟨num_tokens, dim, mkEmbeddingTable num_tokens dim p.wemb,
   Transformer.init dim depth dim_head heads quantized_transformer p,
   mkLinearB dim num_tokens p.wl p.bl⟩

/-- Token embedding lookup for one sequence. -/
def LaMDAModel.embedSeq (M : LaMDAModel) (seq : List ℕ) : List (List ℝ) :=
  seq.map (fun t => M.token_emb.getD t [])

/-- The `to_logits` head on one sequence of feature vectors. -/
def LaMDAModel.logitsSeq (M : LaMDAModel) (x : List (List ℝ)) : List (List ℝ) :=
  (x.map (layerNorm (List.replicate M.dim 1) (List.replicate M.dim 0))).map
    (applyLinear M.to_logits)

/-- `LaMDA.forward` on a batch of token sequences. -/
def LaMDAModel.forward (M : LaMDAModel) (tokens : List (List ℕ)) : List (List (List ℝ)) :=
  tokens.map (fun seq => M.logitsSeq (M.transformer.forward (M.embedSeq seq)))

/-- `quantize_dynamic(model, {nn.Linear})` on the whole `LaMDA` module: torch
recursively replaces every `nn.Linear` submodule (the attention projections,
the feedforward projections and the logits projection); `nn.Embedding` and
`nn.LayerNorm` are not in the qconfig set and stay untouched. -/
def LaMDAModel.quantizeDyn (M : LaMDAModel) : LaMDAModel :=
  ⟨M.num_tokens, M.dim, M.token_emb,
   ⟨M.transformer.attn.quantizeDyn, M.transformer.ffn.quantizeDyn,
    M.transformer.depth, M.transformer.dim⟩,
   M.to_logits.quantize⟩

/-- `lamda_model(quantized_logits, quantized_transformer)` with the
configuration values passed explicitly in place of the global `CFG`. -/
def lamda_model (quantized_logits quantized_transformer : Bool)
    (num_tokens dim depth dim_head heads : ℕ) (p : InitParams) : LaMDAModel :=
  let model := LaMDAModel.init num_tokens dim depth dim_head heads quantized_transformer p
  if quantized_logits then model.quantizeDyn else model

/-- Allocation-level model of one `PreNorm` wrapper: the id of the freshly
allocated `nn.LayerNorm` it owns and the id of the wrapped module. -/
structure PreNormAlloc where
  norm_id : ℕ
  fn_id : ℕ

/-- Allocation-level model of `Transformer.__init__`: the single `Attention`
object gets id `0`, the single `FeedForward` id `1`, and the loop iteration
`d` allocates two fresh `nn.LayerNorm` objects (ids `2 + 2*d` and `3 + 2*d`)
for the two `PreNorm` wrappers it appends, both wrapping the shared ids. -/
def transformerLayersAlloc (depth : ℕ) : List (PreNormAlloc × PreNormAlloc) :=
  (List.range depth).map (fun d => (⟨2 + 2 * d, 0⟩, ⟨3 + 2 * d, 1⟩))

/-- All rows of a sequence tensor have width `dim`. -/
def SeqShape (dim : ℕ) (x : List (List ℝ)) : Prop := ∀ r ∈ x, r.length = dim

/-- Result tag of an `Except`-embedded constructor. -/
def isOkE {α : Type} (e : Except String α) : Bool :=
  match e with
  | .ok _ => true
  | .error _ => false

/-- `T5RelativePositionBias.__init__` as a fallible constructor: the Python
body only stores its arguments and builds the embedding table; it contains no
validation and no raise for any hyperparameters, so it always returns `.ok`. -/
def T5Bias.initE (scale : ℝ) (num_buckets max_distance heads : ℕ) (w : ℕ → ℕ → ℝ) :
    Except String T5Bias :=
  .ok (T5Bias.init scale num_buckets max_distance heads w)

/-- `Attention.__init__` as a fallible constructor.  The body contains no
validation, but the expression `dim_head ** -0.5` raises `ZeroDivisionError`
in Python exactly when `dim_head = 0` (a non-negative integer base raised to
a negative power); every other step (module and table construction) succeeds
for all hyperparameters. -/
def Attention.initE (dim heads dim_head : ℕ) (p : InitParams) : Except String Attention :=
  if dim_head = 0 then
    .error "ZeroDivisionError: 0.0 cannot be raised to a negative power"
  else
    .ok (Attention.init dim heads dim_head p)

/-- `Transformer.__init__` as a fallible constructor: it propagates the only
failing step, the attention scale computation; everything else raises
nothing. -/
def Transformer.initE (dim depth heads dim_head : ℕ) (quantized : Bool) (p : InitParams) :
    Except String Transformer :=
  (Attention.initE dim heads dim_head p).map (fun attn =>
    let ffn := FeedForward.init dim 4 p
    ⟨if quantized then attn.quantizeDyn else attn,
     if quantized then ffn.quantizeDyn else ffn, depth, dim⟩)

/-- `LaMDA.__init__` as a fallible constructor: no validation of its own; it
constructs the transformer as `Transformer(dim, depth, dim_head, heads, ...)`
(the argument transposition), so the attention module receives the configured
`heads` as its per-head width and construction fails — with the incidental
`ZeroDivisionError`, not a descriptive validation error — exactly when the
configured `heads` is `0`. -/
def LaMDAModel.initE (num_tokens dim depth dim_head heads : ℕ)
    (quantized_transformer : Bool) (p : InitParams) : Except String LaMDAModel :=
  (Transformer.initE dim depth dim_head heads quantized_transformer p).map (fun T =>
    ⟨num_tokens, dim, mkEmbeddingTable num_tokens dim p.wemb, T,
     mkLinearB dim num_tokens p.wl p.bl⟩)

/-! ### Helper lemmas -/

theorem getD_map_range {α : Type} (f : ℕ → α) {n i : ℕ} (h : i < n) (d : α) :
    ((List.range n).map f).getD i d = f i := by
  rw [List.getD_eq_getElem?_getD, List.getElem?_map, List.getElem?_range h]
  rfl

theorem truncToZero_of_nonneg {x : ℝ} (h : 0 ≤ x) : truncToZero x = ⌊x⌋ := if_pos h

theorem bucket_large_arg_nonneg (nb md : ℕ) (h2 : 2 ≤ nb) (hmd : nb / 2 < md)
    {m : ℕ} (hm : nb / 2 ≤ m) :
    0 ≤ Real.log ((m : ℝ) / ((nb / 2 : ℕ) : ℝ)) /
      Real.log ((md : ℝ) / ((nb / 2 : ℕ) : ℝ)) * ((nb : ℝ) - ((nb / 2 : ℕ) : ℝ)) := by
  have hE1 : 1 ≤ nb / 2 := by omega
  have hE0 : (0 : ℝ) < ((nb / 2 : ℕ) : ℝ) := by exact_mod_cast hE1
  have hnum : 0 ≤ Real.log ((m : ℝ) / ((nb / 2 : ℕ) : ℝ)) := by
    apply Real.log_nonneg
    rw [le_div_iff₀ hE0, one_mul]
    exact_mod_cast hm
  have hden : 0 < Real.log ((md : ℝ) / ((nb / 2 : ℕ) : ℝ)) := by
    apply Real.log_pos
    rw [lt_div_iff₀ hE0, one_mul]
    exact_mod_cast hmd
  have hW : (0 : ℝ) ≤ (nb : ℝ) - ((nb / 2 : ℕ) : ℝ) := by
    have := Nat.div_le_self nb 2
    have : ((nb / 2 : ℕ) : ℝ) ≤ (nb : ℝ) := by exact_mod_cast this
    linarith
  exact mul_nonneg (div_nonneg hnum hden.le) hW

/-! ### C1 -/

/-- C1: `LaMDA.__init__` passes `dim_head` and `heads` to `Transformer` in
transposed positions, so the constructed attention module stores the
configured `dim_head` as its head count, and its per-head width (the width
`rearrange` infers, hence also half the `to_kv` projection width and the
width whose inverse square root scales the queries) is the configured
`heads`. -/
theorem lamda_transformer_swaps_heads_dim_head
    (num_tokens dim depth dim_head heads : ℕ) (qt : Bool) (p : InitParams)
    (hpos : 0 < dim_head) :
    ((LaMDAModel.init num_tokens dim depth dim_head heads qt p).transformer.attn.heads = dim_head)
    ∧ ((LaMDAModel.init num_tokens dim depth dim_head heads qt p).transformer.attn.dimHead = heads)
    ∧ ((LaMDAModel.init num_tokens dim depth dim_head heads qt p).transformer.attn.to_kv.weight.length = heads * 2)
    ∧ ((LaMDAModel.init num_tokens dim depth dim_head heads qt p).transformer.attn.scale = attnScale heads) := by
  cases qt <;>
    simp [LaMDAModel.init, Transformer.init, Attention.init, Attention.quantizeDyn,
      Attention.dimHead, mkLinear, LinearLayer.quantize, Nat.mul_div_cancel_left _ hpos]

/-- C1 witness at a concrete configuration. -/
theorem lamda_transformer_swaps_heads_dim_head_witness :
    (0 < 2)
    ∧ ((LaMDAModel.init 11 5 3 2 7 false zeroParams).transformer.attn.heads = 2)
    ∧ ((LaMDAModel.init 11 5 3 2 7 false zeroParams).transformer.attn.dimHead = 7)
    ∧ ((LaMDAModel.init 11 5 3 2 7 false zeroParams).transformer.attn.to_kv.weight.length = 7 * 2)
    ∧ ((LaMDAModel.init 11 5 3 2 7 false zeroParams).transformer.attn.scale = attnScale 7) :=
  ⟨by decide, lamda_transformer_swaps_heads_dim_head 11 5 3 2 7 false zeroParams (by decide)⟩

/-! ### C2 -/

/-- C2: with `quantized_logits` enabled and `quantized_transformer` disabled,
`lamda_model` applies `quantize_dynamic` with qconfig `{nn.Linear}` to the
whole module tree, so every `nn.Linear` in the model is converted — the
attention projections and the feedforward projections included — and not only
the final vocabulary projection, contradicting the comment in the source and
the specification. -/
theorem lamda_quantized_logits_quantizes_all_linears
    (num_tokens dim depth dim_head heads : ℕ) (p : InitParams) :
    ((lamda_model true false num_tokens dim depth dim_head heads p).transformer.attn.to_q.quantized = true)
    ∧ ((lamda_model true false num_tokens dim depth dim_head heads p).transformer.attn.to_kv.quantized = true)
    ∧ ((lamda_model true false num_tokens dim depth dim_head heads p).transformer.attn.to_out.quantized = true)
    ∧ ((lamda_model true false num_tokens dim depth dim_head heads p).transformer.ffn.lin1.quantized = true)
    ∧ ((lamda_model true false num_tokens dim depth dim_head heads p).transformer.ffn.lin2.quantized = true)
    ∧ ((lamda_model true false num_tokens dim depth dim_head heads p).to_logits.quantized = true) := by
  simp [lamda_model, LaMDAModel.init, LaMDAModel.quantizeDyn, Transformer.init,
    Attention.init, FeedForward.init, Attention.quantizeDyn, FeedForward.quantizeDyn,
    LinearLayer.quantize, mkLinear, mkLinearB]

/-! ### C6 -/

/-- C6: at allocation level, every depth index wraps the same single
`Attention` object (id `0`) and the same single `FeedForward` object (id
`1`), while the `nn.LayerNorm` owned by each `PreNorm` wrapper is a fresh
object: equal norm ids force equal depth indices, and the attention-side and
feedforward-side wrappers never share a norm. -/
theorem transformer_shares_attn_ffn_distinct_norms
    (depth d1 d2 : ℕ) (h1 : d1 < depth) (h2 : d2 < depth) :
    (((transformerLayersAlloc depth).getD d1 (⟨0, 0⟩, ⟨0, 0⟩)).1.fn_id =
      ((transformerLayersAlloc depth).getD d2 (⟨0, 0⟩, ⟨0, 0⟩)).1.fn_id)
    ∧ (((transformerLayersAlloc depth).getD d1 (⟨0, 0⟩, ⟨0, 0⟩)).2.fn_id =
      ((transformerLayersAlloc depth).getD d2 (⟨0, 0⟩, ⟨0, 0⟩)).2.fn_id)
    ∧ (((transformerLayersAlloc depth).getD d1 (⟨0, 0⟩, ⟨0, 0⟩)).1.norm_id =
        ((transformerLayersAlloc depth).getD d2 (⟨0, 0⟩, ⟨0, 0⟩)).1.norm_id → d1 = d2)
    ∧ (((transformerLayersAlloc depth).getD d1 (⟨0, 0⟩, ⟨0, 0⟩)).2.norm_id =
        ((transformerLayersAlloc depth).getD d2 (⟨0, 0⟩, ⟨0, 0⟩)).2.norm_id → d1 = d2)
    ∧ (((transformerLayersAlloc depth).getD d1 (⟨0, 0⟩, ⟨0, 0⟩)).1.norm_id ≠
        ((transformerLayersAlloc depth).getD d2 (⟨0, 0⟩, ⟨0, 0⟩)).2.norm_id) := by
  rw [transformerLayersAlloc, getD_map_range _ h1, getD_map_range _ h2]
  refine ⟨rfl, rfl, ?_, ?_, ?_⟩
  all_goals simp
  all_goals omega

/-- C6 witness at depth 2 with the two distinct layer indices. -/
theorem transformer_shares_attn_ffn_distinct_norms_witness :
    (((transformerLayersAlloc 2).getD 0 (⟨0, 0⟩, ⟨0, 0⟩)).1.fn_id =
      ((transformerLayersAlloc 2).getD 1 (⟨0, 0⟩, ⟨0, 0⟩)).1.fn_id)
    ∧ (((transformerLayersAlloc 2).getD 0 (⟨0, 0⟩, ⟨0, 0⟩)).2.fn_id =
      ((transformerLayersAlloc 2).getD 1 (⟨0, 0⟩, ⟨0, 0⟩)).2.fn_id)
    ∧ (((transformerLayersAlloc 2).getD 0 (⟨0, 0⟩, ⟨0, 0⟩)).1.norm_id =
        ((transformerLayersAlloc 2).getD 1 (⟨0, 0⟩, ⟨0, 0⟩)).1.norm_id → (0 : ℕ) = 1)
    ∧ (((transformerLayersAlloc 2).getD 0 (⟨0, 0⟩, ⟨0, 0⟩)).2.norm_id =
        ((transformerLayersAlloc 2).getD 1 (⟨0, 0⟩, ⟨0, 0⟩)).2.norm_id → (0 : ℕ) = 1)
    ∧ (((transformerLayersAlloc 2).getD 0 (⟨0, 0⟩, ⟨0, 0⟩)).1.norm_id ≠
        ((transformerLayersAlloc 2).getD 1 (⟨0, 0⟩, ⟨0, 0⟩)).2.norm_id) :=
  transformer_shares_attn_ffn_distinct_norms 2 0 1 (by decide) (by decide)

/-! ### C10 -/

/-- C10 counterexample: constructing the bias module with an odd
`num_buckets = 33` and a degenerate `max_distance = 10 ≤ 33 / 2`, and the
model with the non-positive `depth = 0`, completes successfully instead of
failing with a descriptive error. -/
theorem construction_no_validation_cex :
    isOkE (T5Bias.initE 1 33 10 8 zeroParams.wbias) = true
    ∧ isOkE (LaMDAModel.initE 10 4 0 3 2 false zeroParams) = true :=
  ⟨rfl, rfl⟩

/-- C10 amended: construction performs no hyperparameter validation.  The
bias module completes for every configuration, odd `num_buckets` and
`max_distance ≤ num_buckets/2` included; the model completes for every
configuration whose configured `heads` is nonzero, non-positive `num_tokens`,
`dim`, `depth` and `dim_head` included; and the single construction-time
failure is the incidental `ZeroDivisionError` raised by `dim_head ** -0.5`
when the configured `heads` is `0` (the transposed argument), which is not a
descriptive validation error — inconsistent bucket hyperparameters are never
rejected and later produce silently degenerate buckets. -/
theorem construction_no_hyperparameter_validation :
    (∀ (s : ℝ) (nb md h : ℕ) (w : ℕ → ℕ → ℝ), isOkE (T5Bias.initE s nb md h w) = true)
    ∧ (∀ (nt dim depth dh h : ℕ) (qt : Bool) (p : InitParams), h ≠ 0 →
        isOkE (LaMDAModel.initE nt dim depth dh h qt p) = true)
    ∧ (∀ (nt dim depth dh : ℕ) (qt : Bool) (p : InitParams),
        isOkE (LaMDAModel.initE nt dim depth dh 0 qt p) = false) := by
  refine ⟨fun _ _ _ _ _ => rfl, ?_, ?_⟩
  · intro nt dim depth dh h qt p hh
    simp [LaMDAModel.initE, Transformer.initE, Attention.initE, hh, isOkE, Except.map]
  · intro nt dim depth dh qt p
    simp [LaMDAModel.initE, Transformer.initE, Attention.initE, isOkE, Except.map]

/-- C10 witness: a degenerate bias configuration that completes, a model
configuration with nonzero configured `heads` that completes, and the
configured `heads = 0` model that fails. -/
theorem construction_no_hyperparameter_validation_witness :
    isOkE (T5Bias.initE 2 7 3 5 zeroParams.wbias) = true
    ∧ isOkE (LaMDAModel.initE 5 2 1 4 6 false zeroParams) = true
    ∧ isOkE (LaMDAModel.initE 5 2 1 4 0 false zeroParams) = false :=
  ⟨construction_no_hyperparameter_validation.1 2 7 3 5 zeroParams.wbias,
   construction_no_hyperparameter_validation.2.1 5 2 1 4 6 false zeroParams (by decide),
   construction_no_hyperparameter_validation.2.2 5 2 1 4 false zeroParams⟩

/-! ### C4 -/

/-- C4: for every clamped non-negative distance `n`, the bucket function
agrees with the formula of the specification — `n` itself below
`num_buckets / 2` (so distance `0` gives bucket `0`), and otherwise
`num_buckets/2 + floor(log(n/(num_buckets/2)) / log(max_distance/(num_buckets/2))
* (num_buckets - num_buckets/2))` clamped to at most `num_buckets - 1`; any
`n` whose computed index reaches `num_buckets` saturates at
`num_buckets - 1`. -/
theorem relative_position_bucket_formula (nb md : ℕ) (h2 : 2 ≤ nb) (hmd : nb / 2 < md) :
    (∀ n : ℕ, relativePositionBucket (-(n : ℤ)) nb md = bucketSpec n nb md)
    ∧ relativePositionBucket 0 nb md = 0
    ∧ (∀ m : ℕ, nb / 2 ≤ m →
        (nb : ℤ) ≤ ((nb / 2 : ℕ) : ℤ) + ⌊Real.log ((m : ℝ) / ((nb / 2 : ℕ) : ℝ)) /
          Real.log ((md : ℝ) / ((nb / 2 : ℕ) : ℝ)) * ((nb : ℝ) - ((nb / 2 : ℕ) : ℝ))⌋ →
        relativePositionBucket (-(m : ℤ)) nb md = (nb : ℤ) - 1) := by
  have hE1 : 1 ≤ nb / 2 := by omega
  have hmax : ∀ n : ℕ, max (-(-(n : ℤ))) 0 = (n : ℤ) := fun n => by
    rw [neg_neg]; exact max_eq_left (Int.natCast_nonneg n)
  have eqAll : ∀ n : ℕ, relativePositionBucket (-(n : ℤ)) nb md = bucketSpec n nb md := by
    intro n
    by_cases hsmall : n < nb / 2
    · simp only [relativePositionBucket, bucketSpec]
      rw [hmax n, if_pos (by exact_mod_cast hsmall), if_pos hsmall]
    · have hge : nb / 2 ≤ n := le_of_not_lt hsmall
      simp only [relativePositionBucket, bucketSpec]
      rw [hmax n, if_neg (by exact_mod_cast hsmall), if_neg hsmall]
      simp only [Int.cast_natCast]
      rw [truncToZero_of_nonneg (bucket_large_arg_nonneg nb md h2 hmd hge), min_comm]
  refine ⟨eqAll, ?_, ?_⟩
  · have h0 : relativePositionBucket (-((0 : ℕ) : ℤ)) nb md = bucketSpec 0 nb md := eqAll 0
    simp only [Nat.cast_zero, neg_zero] at h0
    rw [h0, bucketSpec, if_pos (by omega)]
    simp
  · intro m hm hsat
    simp only [relativePositionBucket]
    rw [hmax m, if_neg (by exact_mod_cast not_lt.mpr hm)]
    simp only [Int.cast_natCast]
    rw [truncToZero_of_nonneg (bucket_large_arg_nonneg nb md h2 hmd hm)]
    exact min_eq_right (by omega)

/-- C4 witness at the default configuration, one exact-regime distance and
the distance `0`. -/
theorem relative_position_bucket_formula_witness :
    relativePositionBucket (-(20 : ℤ)) 32 128 = bucketSpec 20 32 128
    ∧ relativePositionBucket 0 32 128 = 0 :=
  ⟨by
    have h := (relative_position_bucket_formula 32 128 (by decide) (by decide)).1 20
    exact_mod_cast h,
   (relative_position_bucket_formula 32 128 (by decide) (by decide)).2.1⟩

/-! ### C5 -/

/-- C5: under the preconditions stated by the specification (`num_buckets`
even and at least `2`, `max_distance` exceeding `num_buckets/2`) the bucket
assignment is monotone non-decreasing in the clamped distance `n`. -/
theorem relative_position_bucket_monotone (nb md : ℕ)
    (heven : nb % 2 = 0) (h2 : 2 ≤ nb) (hmd : nb / 2 < md)
    (n1 n2 : ℕ) (hle : n1 ≤ n2) :
    relativePositionBucket (-(n1 : ℤ)) nb md ≤ relativePositionBucket (-(n2 : ℤ)) nb md := by
  have hE1 : 1 ≤ nb / 2 := by omega
  have hE0 : (0 : ℝ) < ((nb / 2 : ℕ) : ℝ) := by exact_mod_cast hE1
  have hmax : ∀ n : ℕ, max (-(-(n : ℤ))) 0 = (n : ℤ) := fun n => by
    rw [neg_neg]; exact max_eq_left (Int.natCast_nonneg n)
  simp only [relativePositionBucket, Int.cast_natCast, hmax]
  by_cases hs1 : n1 < nb / 2
  · by_cases hs2 : n2 < nb / 2
    · rw [if_pos (by exact_mod_cast hs1), if_pos (by exact_mod_cast hs2)]
      exact_mod_cast hle
    · have hge2 : nb / 2 ≤ n2 := le_of_not_lt hs2
      rw [if_pos (by exact_mod_cast hs1), if_neg (by exact_mod_cast hs2),
        truncToZero_of_nonneg (bucket_large_arg_nonneg nb md h2 hmd hge2)]
      have hf : 0 ≤ ⌊Real.log ((n2 : ℝ) / ((nb / 2 : ℕ) : ℝ)) /
          Real.log ((md : ℝ) / ((nb / 2 : ℕ) : ℝ)) * ((nb : ℝ) - ((nb / 2 : ℕ) : ℝ))⌋ :=
        Int.floor_nonneg.mpr (bucket_large_arg_nonneg nb md h2 hmd hge2)
      have hn1E : (n1 : ℤ) < ((nb / 2 : ℕ) : ℤ) := by exact_mod_cast hs1
      apply le_min
      · linarith
      · omega
  · have hge1 : nb / 2 ≤ n1 := le_of_not_lt hs1
    have hge2 : nb / 2 ≤ n2 := le_trans hge1 hle
    rw [if_neg (by exact_mod_cast hs1), if_neg (by exact_mod_cast not_lt.mpr hge2),
      truncToZero_of_nonneg (bucket_large_arg_nonneg nb md h2 hmd hge1),
      truncToZero_of_nonneg (bucket_large_arg_nonneg nb md h2 hmd hge2)]
    have hlog : Real.log ((n1 : ℝ) / ((nb / 2 : ℕ) : ℝ)) ≤
        Real.log ((n2 : ℝ) / ((nb / 2 : ℕ) : ℝ)) := by
      apply Real.log_le_log
      · apply div_pos _ hE0
        have hn1 : (0 : ℕ) < n1 := by omega
        exact_mod_cast hn1
      · exact div_le_div_of_nonneg_right (by exact_mod_cast hle) hE0.le
    have hL : 0 < Real.log ((md : ℝ) / ((nb / 2 : ℕ) : ℝ)) := by
      apply Real.log_pos
      rw [lt_div_iff₀ hE0, one_mul]
      exact_mod_cast hmd
    have hW : (0 : ℝ) ≤ (nb : ℝ) - ((nb / 2 : ℕ) : ℝ) := by
      have hle2 : ((nb / 2 : ℕ) : ℝ) ≤ (nb : ℝ) := by exact_mod_cast Nat.div_le_self nb 2
      linarith
    have hX : Real.log ((n1 : ℝ) / ((nb / 2 : ℕ) : ℝ)) /
          Real.log ((md : ℝ) / ((nb / 2 : ℕ) : ℝ)) * ((nb : ℝ) - ((nb / 2 : ℕ) : ℝ)) ≤
        Real.log ((n2 : ℝ) / ((nb / 2 : ℕ) : ℝ)) /
          Real.log ((md : ℝ) / ((nb / 2 : ℕ) : ℝ)) * ((nb : ℝ) - ((nb / 2 : ℕ) : ℝ)) :=
      mul_le_mul_of_nonneg_right (div_le_div_of_nonneg_right hlog hL.le) hW
    exact min_le_min (add_le_add_left (Int.floor_le_floor hX) _) le_rfl

/-- C5 witness at the default configuration with the distances 3 and 5. -/
theorem relative_position_bucket_monotone_witness :
    relativePositionBucket (-(3 : ℕ) : ℤ) 32 128 ≤ relativePositionBucket (-(5 : ℕ) : ℤ) 32 128 :=
  relative_position_bucket_monotone 32 128 (by decide) (by decide) (by decide) 3 5 (by decide)

/-! ### Shape and entry lemmas for the attention stages -/

theorem getD_map_lt {α β : Type} (f : α → β) {l : List α} {i : ℕ} (h : i < l.length)
    (d : β) (e : α) : (l.map f).getD i d = f (l.getD i e) := by
  rw [List.getD_eq_getElem?_getD, List.getElem?_map, List.getElem?_eq_getElem h,
    List.getD_eq_getElem?_getD, List.getElem?_eq_getElem h]
  rfl

theorem length_applyLinear_mkLinear (inF outF : ℕ) (w : ℕ → ℕ → ℝ) (x : List ℝ) :
    (applyLinear (mkLinear inF outF w) x).length = outF := by
  simp [applyLinear, mkLinear]

theorem length_applyLinear_mkLinearB (inF outF : ℕ) (w : ℕ → ℕ → ℝ) (b : ℕ → ℝ) (x : List ℝ) :
    (applyLinear (mkLinearB inF outF w b) x).length = outF := by
  simp [applyLinear, mkLinearB]

theorem length_chunkFst (r : List ℝ) : (chunkFst r).length = min ((r.length + 1) / 2) r.length := by
  simp [chunkFst]

theorem length_chunkSnd (r : List ℝ) : (chunkSnd r).length = r.length - (r.length + 1) / 2 := by
  simp [chunkSnd]

theorem simRaw_length (A : Attention) (x : List (List ℝ)) :
    (A.simRaw x).length = A.heads := by
  simp [Attention.simRaw]

theorem simRaw_row_length (A : Attention) (x : List (List ℝ)) {hh : ℕ} (h : hh < A.heads) :
    ((A.simRaw x).getD hh []).length = x.length := by
  rw [Attention.simRaw, getD_map_range _ h]
  simp

theorem simRaw_entry_length (A : Attention) (x : List (List ℝ)) {hh i : ℕ}
    (h1 : hh < A.heads) (h2 : i < x.length) :
    (((A.simRaw x).getD hh []).getD i []).length = x.length := by
  rw [Attention.simRaw, getD_map_range _ h1, getD_map_range _ h2]
  simp

theorem t5_forward_length (t : T5Bias) (qk : List (List (List ℝ))) :
    (t.forward qk).length = qk.length := by
  simp [T5Bias.forward]

theorem t5_forward_row_length (t : T5Bias) (qk : List (List (List ℝ))) {hh : ℕ}
    (h : hh < qk.length) :
    ((t.forward qk).getD hh []).length = (qk.getD hh []).length := by
  rw [T5Bias.forward, getD_map_range _ h]
  simp

theorem t5_forward_entry_length (t : T5Bias) (qk : List (List (List ℝ))) {hh i : ℕ}
    (h1 : hh < qk.length) (h2 : i < (qk.getD hh []).length) :
    (((t.forward qk).getD hh []).getD i []).length = ((qk.getD hh []).getD i []).length := by
  rw [T5Bias.forward, getD_map_range _ h1, getD_map_range _ h2]
  simp

theorem simBiased_length (A : Attention) (x : List (List ℝ)) :
    (A.simBiased x).length = A.heads := by
  rw [Attention.simBiased, t5_forward_length, simRaw_length]

theorem simBiased_row_length (A : Attention) (x : List (List ℝ)) {hh : ℕ} (h : hh < A.heads) :
    ((A.simBiased x).getD hh []).length = x.length := by
  rw [Attention.simBiased,
    t5_forward_row_length _ _ (by rw [simRaw_length]; exact h), simRaw_row_length A x h]

theorem simBiased_entry_length (A : Attention) (x : List (List ℝ)) {hh i : ℕ}
    (h1 : hh < A.heads) (h2 : i < x.length) :
    (((A.simBiased x).getD hh []).getD i []).length = x.length := by
  rw [Attention.simBiased,
    t5_forward_entry_length _ _ (by rw [simRaw_length]; exact h1)
      (by rw [simRaw_row_length A x h1]; exact h2),
    simRaw_entry_length A x h1 h2]

theorem simMasked_length (A : Attention) (x : List (List ℝ)) :
    (A.simMasked x).length = A.heads := by
  simp only [Attention.simMasked]
  simp [simBiased_length]

theorem simMasked_row_length (A : Attention) (x : List (List ℝ)) {hh : ℕ} (h : hh < A.heads) :
    ((A.simMasked x).getD hh []).length = x.length := by
  have hs1 : hh < (A.simBiased x).length := by rw [simBiased_length]; exact h
  simp only [Attention.simMasked]
  rw [getD_map_range _ hs1]
  simp only [List.length_map, List.length_range]
  exact simBiased_row_length A x h

theorem simMasked_entry_length (A : Attention) (x : List (List ℝ)) {hh i : ℕ}
    (h1 : hh < A.heads) (h2 : i < x.length) :
    (((A.simMasked x).getD hh []).getD i []).length = x.length := by
  have hs1 : hh < (A.simBiased x).length := by rw [simBiased_length]; exact h1
  have hs2 : i < ((A.simBiased x).getD hh []).length := by
    rw [simBiased_row_length A x h1]; exact h2
  simp only [Attention.simMasked]
  rw [getD_map_range _ hs1, getD_map_range _ hs2]
  simp only [List.length_map, List.length_range]
  exact simBiased_entry_length A x h1 h2

theorem simRaw_entry (A : Attention) (x : List (List ℝ)) {hh i j : ℕ}
    (h1 : hh < A.heads) (h2 : i < x.length) (h3 : j < x.length) :
    (((A.simRaw x).getD hh []).getD i []).getD j 0 =
      dot ((A.qHead x hh i).map (fun a => A.scale * a)) ((A.kmat x).getD j []) := by
  rw [Attention.simRaw, getD_map_range _ h1, getD_map_range _ h2, getD_map_range _ h3]

theorem simMasked_entry_of_lt (A : Attention) (x : List (List ℝ)) {hh i j : ℕ}
    (h1 : hh < A.heads) (h2 : i < x.length) (h3 : j < x.length) (hij : i < j) :
    (((A.simMasked x).getD hh []).getD i []).getD j 0 = -f32Max := by
  have hs1 : hh < (A.simBiased x).length := by rw [simBiased_length]; exact h1
  have hs2 : i < ((A.simBiased x).getD hh []).length := by
    rw [simBiased_row_length A x h1]; exact h2
  have hs3 : j < (((A.simBiased x).getD hh []).getD i []).length := by
    rw [simBiased_entry_length A x h1 h2]; exact h3
  simp only [Attention.simMasked]
  rw [getD_map_range _ hs1, getD_map_range _ hs2, getD_map_range _ hs3,
    if_pos (by rw [simBiased_entry_length A x h1 h2, simBiased_row_length A x h1]; omega)]

/-! ### C7 -/

/-- C7: in the constructed attention module, queries are projected by a
bias-free affine map into `heads * dim_head` features and scaled by
`dim_head ** -0.5` (a positive scale whose square times `dim_head` is `1`),
while keys and values come from one shared bias-free affine map producing
only `dim_head * 2` features total, split into one key matrix and one value
matrix with `dim_head`-wide rows and no head axis; every head's similarity
row consumes the same shared key row. -/
theorem attention_multiquery_structure (dim heads dim_head : ℕ) (p : InitParams)
    (hdh : 0 < dim_head) (x : List (List ℝ)) :
    ((Attention.init dim heads dim_head p).to_q.bias = none)
    ∧ ((Attention.init dim heads dim_head p).to_q.weight.length = heads * dim_head)
    ∧ ((Attention.init dim heads dim_head p).to_kv.bias = none)
    ∧ ((Attention.init dim heads dim_head p).to_kv.weight.length = dim_head * 2)
    ∧ ((Attention.init dim heads dim_head p).scale = attnScale dim_head)
    ∧ attnScale dim_head ^ 2 * (dim_head : ℝ) = 1
    ∧ 0 < attnScale dim_head
    ∧ (((Attention.init dim heads dim_head p).kmat x).length = x.length
       ∧ ((Attention.init dim heads dim_head p).vmat x).length = x.length)
    ∧ (∀ j, j < x.length →
        ((((Attention.init dim heads dim_head p).kmat x).getD j []).length = dim_head
         ∧ (((Attention.init dim heads dim_head p).vmat x).getD j []).length = dim_head))
    ∧ (∀ hh i j, hh < heads → i < x.length → j < x.length →
        ((((Attention.init dim heads dim_head p).simRaw x).getD hh []).getD i []).getD j 0 =
          dot (((Attention.init dim heads dim_head p).qHead x hh i).map
              (fun a => (Attention.init dim heads dim_head p).scale * a))
            (((Attention.init dim heads dim_head p).kmat x).getD j [])) := by
  have hx : (0 : ℝ) < (dim_head : ℝ) := by exact_mod_cast hdh
  refine ⟨rfl, ?_, rfl, ?_, rfl, ?_, ?_, ⟨?_, ?_⟩, ?_, ?_⟩
  · simp [Attention.init, mkLinear]
  · simp [Attention.init, mkLinear]
  · rw [attnScale, ← Real.rpow_natCast ((dim_head : ℝ) ^ (-(1 / 2) : ℝ)) 2,
      ← Real.rpow_mul hx.le]
    norm_num
    rw [Real.rpow_neg_one]
    exact inv_mul_cancel₀ hx.ne'
  · exact Real.rpow_pos_of_pos hx _
  · simp [Attention.kmat]
  · simp [Attention.vmat]
  · intro j hj
    have hj2 : j < (x.map (applyLinear (Attention.init dim heads dim_head p).to_kv)).length := by
      simpa using hj
    constructor
    · rw [Attention.kmat, getD_map_lt _ hj2 _ [], getD_map_lt _ hj _ [], length_chunkFst,
        show (Attention.init dim heads dim_head p).to_kv = mkLinear dim (dim_head * 2) p.wkv from rfl,
        length_applyLinear_mkLinear]
      omega
    · rw [Attention.vmat, getD_map_lt _ hj2 _ [], getD_map_lt _ hj _ [], length_chunkSnd,
        show (Attention.init dim heads dim_head p).to_kv = mkLinear dim (dim_head * 2) p.wkv from rfl,
        length_applyLinear_mkLinear]
      omega
  · intro hh i j hhh hi hj
    exact simRaw_entry _ x hhh hi hj

theorem map_const_range {α : Type} (N : ℕ) (c : α) :
    (List.range N).map (fun _ => c) = List.replicate N c := by
  induction N with
  | zero => rfl
  | succ n ih => simp [List.range_succ, ih, List.replicate_succ']

/-! ### C8 -/

/-- C8 counterexample: two feedforward instances with `dim = mult = 1` that
differ only in the second-half output row of the first affine map produce
different outputs on the input `[1]`, so the second half of the expanded
width is consumed (squared ReLU applies to it and the second affine map reads
it), contradicting the claim that it is unused. -/
theorem feedforward_second_half_used_cex :
    FeedForward.forward (FeedForward.init 1 1 ffParamsUsed) [1] ≠
      FeedForward.forward (FeedForward.init 1 1 ffParamsZeroed) [1] := by
  norm_num [FeedForward.forward, FeedForward.init, applyLinear, mkLinearB, dot,
    squaredRelu, ffParamsUsed, ffParamsZeroed, List.range_succ]

/-- C8 amended: the first affine map expands the input to `2 * inner_dim`
outputs (`inner_dim = dim * mult`) from `dim`-wide rows, the squared-ReLU
activation operates elementwise on all `2 * inner_dim` outputs — both halves,
no gating split — and the second affine map consumes the full `2 * inner_dim`
width, projecting back to `dim` (dropout sits between activation and second
map and is the identity here). -/
theorem feedforward_squared_relu_full_width (dim mult : ℕ) (p : InitParams) (x : List ℝ) :
    ((FeedForward.init dim mult p).lin1.weight.length = dim * mult * 2)
    ∧ ((FeedForward.init dim mult p).lin1.weight.map List.length =
        List.replicate (dim * mult * 2) dim)
    ∧ ((FeedForward.init dim mult p).lin2.weight.length = dim)
    ∧ ((FeedForward.init dim mult p).lin2.weight.map List.length =
        List.replicate dim (dim * mult * 2))
    ∧ ((applyLinear (FeedForward.init dim mult p).lin1 x).length = dim * mult * 2)
    ∧ (FeedForward.forward (FeedForward.init dim mult p) x =
        applyLinear (FeedForward.init dim mult p).lin2
          ((applyLinear (FeedForward.init dim mult p).lin1 x).map (fun a => max a 0 ^ 2))) := by
  refine ⟨?_, ?_, ?_, ?_, ?_, rfl⟩
  · simp [FeedForward.init, mkLinearB]
  · simp only [FeedForward.init, mkLinearB, List.map_map, Function.comp_def,
      List.length_map, List.length_range]
    exact map_const_range _ _
  · simp [FeedForward.init, mkLinearB]
  · simp only [FeedForward.init, mkLinearB, List.map_map, Function.comp_def,
      List.length_map, List.length_range]
    exact map_const_range _ _
  · exact length_applyLinear_mkLinearB _ _ _ _ _

/-- C7 witness at a concrete configuration and input. -/
theorem attention_multiquery_structure_witness :
    ((Attention.init 1 2 3 zeroParams).to_kv.weight.length = 3 * 2)
    ∧ (((Attention.init 1 2 3 zeroParams).kmat [[5]]).getD 0 []).length = 3
    ∧ ((((Attention.init 1 2 3 zeroParams).simRaw [[5]]).getD 1 []).getD 0 []).getD 0 0 =
        dot (((Attention.init 1 2 3 zeroParams).qHead [[5]] 1 0).map
            (fun a => (Attention.init 1 2 3 zeroParams).scale * a))
          (((Attention.init 1 2 3 zeroParams).kmat [[5]]).getD 0 []) := by
  obtain ⟨-, -, -, hkvlen, -, -, -, -, hrows, hshare⟩ :=
    attention_multiquery_structure 1 2 3 zeroParams (by decide) [[5]]
  exact ⟨hkvlen, (hrows 0 (by decide)).1, hshare 1 0 0 (by decide) (by decide) (by decide)⟩

/-! ### Shape lemmas for the full pipeline -/

theorem applyLinear_quantize (l : LinearLayer) (x : List ℝ) :
    applyLinear l.quantize x = applyLinear l x := rfl

theorem mem_zipWith_stmt {α β γ : Type} {f : α → β → γ} :
    ∀ {l1 : List α} {l2 : List β} {c : γ}, c ∈ List.zipWith f l1 l2 →
      ∃ a ∈ l1, ∃ b ∈ l2, c = f a b := by
  intro l1
  induction l1 with
  | nil => intro l2 c h; simp at h
  | cons a t ih =>
    intro l2 c h
    cases l2 with
    | nil => simp at h
    | cons b t2 =>
      simp only [List.zipWith_cons_cons, List.mem_cons] at h
      rcases h with h | h
      · exact ⟨a, by simp, b, by simp, h⟩
      · obtain ⟨a2, ha, b2, hb, rfl⟩ := ih h
        exact ⟨a2, by simp [ha], b2, by simp [hb], rfl⟩

theorem attnForward_length (A : Attention) (x : List (List ℝ)) :
    (A.forward x).length = x.length := by
  simp [Attention.forward]

theorem attnForward_rows (A : Attention) (dim : ℕ)
    (hout : ∀ v, (applyLinear A.to_out v).length = dim) (y : List (List ℝ)) :
    SeqShape dim (A.forward y) := by
  intro r hr
  rw [Attention.forward] at hr
  obtain ⟨i, hi, rfl⟩ := List.mem_map.1 hr
  exact hout _

theorem layerNorm_length (g b x : List ℝ) :
    (layerNorm g b x).length = min (min g.length x.length) b.length := by
  simp [layerNorm]

theorem lnRows_shape (dim : ℕ) (x : List (List ℝ)) (hx : SeqShape dim x) :
    SeqShape dim (x.map (layerNorm (List.replicate dim 1) (List.replicate dim 0))) := by
  intro r hr
  obtain ⟨r0, hr0, rfl⟩ := List.mem_map.1 hr
  rw [layerNorm_length, List.length_replicate, hx r0 hr0]
  simp

theorem residualWrap_length (fn : List (List ℝ) → List (List ℝ)) (x : List (List ℝ)) :
    (residualWrap fn x).length = min (fn x).length x.length := by
  simp [residualWrap]

theorem residualWrap_rows (dim : ℕ) (fn : List (List ℝ) → List (List ℝ)) (x : List (List ℝ))
    (hfn : SeqShape dim (fn x)) (hx : SeqShape dim x) :
    SeqShape dim (residualWrap fn x) := by
  intro r hr
  obtain ⟨a, ha, b, hb, rfl⟩ := mem_zipWith_stmt hr
  rw [List.length_zipWith, hfn a ha, hx b hb]
  simp

theorem ffRows_shape (f : FeedForward) (dim : ℕ)
    (hout : ∀ v, (applyLinear f.lin2 v).length = dim) (y : List (List ℝ)) :
    SeqShape dim (y.map f.forward) := by
  intro r hr
  obtain ⟨r0, hr0, rfl⟩ := List.mem_map.1 hr
  exact hout _

theorem block_shape (T : Transformer) (dim : ℕ)
    (hAout : ∀ v, (applyLinear T.attn.to_out v).length = dim)
    (hFout : ∀ v, (applyLinear T.ffn.lin2 v).length = dim)
    (x : List (List ℝ)) (hx : SeqShape dim x) :
    (T.block x).length = x.length ∧ SeqShape dim (T.block x) := by
  have hpn1len : (preNorm T.dim (Attention.forward T.attn) x).length = x.length := by
    rw [preNorm, attnForward_length, List.length_map]
  have hpn1rows : SeqShape dim (preNorm T.dim (Attention.forward T.attn) x) :=
    attnForward_rows T.attn dim hAout _
  have hy1len : (residualWrap (preNorm T.dim (Attention.forward T.attn)) x).length = x.length := by
    rw [residualWrap_length, hpn1len]
    simp
  have hy1rows : SeqShape dim (residualWrap (preNorm T.dim (Attention.forward T.attn)) x) :=
    residualWrap_rows dim _ x hpn1rows hx
  have hpn2len : ∀ y : List (List ℝ),
      (preNorm T.dim (fun z => z.map (FeedForward.forward T.ffn)) y).length = y.length := by
    intro y
    rw [preNorm]
    simp
  have hpn2rows : ∀ y : List (List ℝ),
      SeqShape dim (preNorm T.dim (fun z => z.map (FeedForward.forward T.ffn)) y) := by
    intro y
    exact ffRows_shape T.ffn dim hFout _
  constructor
  · rw [Transformer.block, residualWrap_length, hpn2len, hy1len]
    simp
  · exact residualWrap_rows dim _ _ (hpn2rows _) hy1rows

theorem iterate_block_shape (T : Transformer) (dim : ℕ)
    (hAout : ∀ v, (applyLinear T.attn.to_out v).length = dim)
    (hFout : ∀ v, (applyLinear T.ffn.lin2 v).length = dim) :
    ∀ (n : ℕ) (x : List (List ℝ)), SeqShape dim x →
      (Nat.iterate T.block n x).length = x.length ∧ SeqShape dim (Nat.iterate T.block n x) := by
  intro n
  induction n with
  | zero => intro x hx; exact ⟨rfl, hx⟩
  | succ n ih =>
    intro x hx
    rw [Function.iterate_succ_apply']
    obtain ⟨hl, hs⟩ := ih x hx
    obtain ⟨hbl, hbs⟩ := block_shape T dim hAout hFout _ hs
    exact ⟨by rw [hbl, hl], hbs⟩

theorem lamda_init_attn_out_length (num_tokens dim depth dim_head heads : ℕ)
    (qt : Bool) (p : InitParams) :
    ∀ v, (applyLinear (LaMDAModel.init num_tokens dim depth dim_head heads qt p).transformer.attn.to_out v).length = dim := by
  intro v
  cases qt
  · exact length_applyLinear_mkLinearB _ _ _ _ _
  · rw [show (LaMDAModel.init num_tokens dim depth dim_head heads true p).transformer.attn.to_out =
      (mkLinearB (dim_head * heads) dim p.wo p.bo).quantize from rfl, applyLinear_quantize]
    exact length_applyLinear_mkLinearB _ _ _ _ _

theorem lamda_init_ffn_out_length (num_tokens dim depth dim_head heads : ℕ)
    (qt : Bool) (p : InitParams) :
    ∀ v, (applyLinear (LaMDAModel.init num_tokens dim depth dim_head heads qt p).transformer.ffn.lin2 v).length = dim := by
  intro v
  cases qt
  · exact length_applyLinear_mkLinearB _ _ _ _ _
  · rw [show (LaMDAModel.init num_tokens dim depth dim_head heads true p).transformer.ffn.lin2 =
      (mkLinearB (dim * 4 * 2) dim p.w2 p.b2).quantize from rfl, applyLinear_quantize]
    exact length_applyLinear_mkLinearB _ _ _ _ _

theorem embedSeq_shape (num_tokens dim depth dim_head heads : ℕ) (qt : Bool) (p : InitParams)
    (seq : List ℕ) (hseq : ∀ t ∈ seq, t < num_tokens) :
    ((LaMDAModel.init num_tokens dim depth dim_head heads qt p).embedSeq seq).length = seq.length
    ∧ SeqShape dim ((LaMDAModel.init num_tokens dim depth dim_head heads qt p).embedSeq seq) := by
  constructor
  · simp [LaMDAModel.embedSeq]
  · intro r hr
    rw [LaMDAModel.embedSeq] at hr
    obtain ⟨t, ht, rfl⟩ := List.mem_map.1 hr
    rw [show (LaMDAModel.init num_tokens dim depth dim_head heads qt p).token_emb =
      mkEmbeddingTable num_tokens dim p.wemb from rfl, mkEmbeddingTable,
      getD_map_range _ (hseq t ht)]
    simp

theorem logitsSeq_shape (num_tokens dim depth dim_head heads : ℕ) (qt : Bool) (p : InitParams)
    (x : List (List ℝ)) :
    ((LaMDAModel.init num_tokens dim depth dim_head heads qt p).logitsSeq x).length = x.length
    ∧ SeqShape num_tokens ((LaMDAModel.init num_tokens dim depth dim_head heads qt p).logitsSeq x) := by
  constructor
  · simp [LaMDAModel.logitsSeq]
  · intro r hr
    rw [LaMDAModel.logitsSeq] at hr
    obtain ⟨r0, hr0, rfl⟩ := List.mem_map.1 hr
    rw [show (LaMDAModel.init num_tokens dim depth dim_head heads qt p).to_logits =
      mkLinearB dim num_tokens p.wl p.bl from rfl]
    exact length_applyLinear_mkLinearB _ _ _ _ _

/-! ### C9 -/

/-- C9: for every configuration and every rectangular batch of token
sequences with values below `num_tokens`, the forward pass preserves the
batch size and, sequence by sequence, the sequence length, and produces rows
of width exactly `num_tokens`. -/
theorem lamda_forward_output_shape (num_tokens dim depth dim_head heads : ℕ)
    (qt : Bool) (p : InitParams)
    (_h1 : 0 < num_tokens) (_h2 : 0 < dim) (_h3 : 0 < depth) (_h4 : 0 < dim_head) (_h5 : 0 < heads)
    (tokens : List (List ℕ))
    (htok : ∀ s ∈ tokens, ∀ t ∈ s, t < num_tokens) :
    ((LaMDAModel.init num_tokens dim depth dim_head heads qt p).forward tokens).length = tokens.length
    ∧ List.Forall₂ (fun (s : List ℕ) (o : List (List ℝ)) =>
        o.length = s.length ∧ ∀ row ∈ o, row.length = num_tokens)
      tokens ((LaMDAModel.init num_tokens dim depth dim_head heads qt p).forward tokens) := by
  constructor
  · simp [LaMDAModel.forward]
  · rw [LaMDAModel.forward, List.forall₂_map_right_iff, List.forall₂_same]
    intro s hs
    obtain ⟨helen, herows⟩ :=
      embedSeq_shape num_tokens dim depth dim_head heads qt p s (htok s hs)
    obtain ⟨htlen, htrows⟩ :=
      iterate_block_shape (LaMDAModel.init num_tokens dim depth dim_head heads qt p).transformer
        dim (lamda_init_attn_out_length num_tokens dim depth dim_head heads qt p)
        (lamda_init_ffn_out_length num_tokens dim depth dim_head heads qt p)
        (LaMDAModel.init num_tokens dim depth dim_head heads qt p).transformer.depth
        _ herows
    obtain ⟨hllen, hlrows⟩ :=
      logitsSeq_shape num_tokens dim depth dim_head heads qt p
        ((LaMDAModel.init num_tokens dim depth dim_head heads qt p).transformer.forward
          ((LaMDAModel.init num_tokens dim depth dim_head heads qt p).embedSeq s))
    refine ⟨?_, hlrows⟩
    rw [hllen, Transformer.forward, htlen, helen]

/-- C9 witness at a concrete configuration and batch. -/
theorem lamda_forward_output_shape_witness :
    ((LaMDAModel.init 2 1 1 1 1 false zeroParams).forward [[0, 1]]).length = 1
    ∧ List.Forall₂ (fun (s : List ℕ) (o : List (List ℝ)) =>
        o.length = s.length ∧ ∀ row ∈ o, row.length = 2)
      [[0, 1]] ((LaMDAModel.init 2 1 1 1 1 false zeroParams).forward [[0, 1]]) := by
  have h := lamda_forward_output_shape 2 1 1 1 1 false zeroParams
    (by decide) (by decide) (by decide) (by decide) (by decide) [[0, 1]]
    (by intro s hs t ht; simp at hs; subst hs; simp at ht; omega)
  exact ⟨by rw [h.1]; rfl, h.2⟩

end

